import Mathlib

/-!
Verification of the storage gateway and form handlers of the Streamlit +
SQLite CRUD application in `src/app.py`.

The single table `entries` (id INTEGER PRIMARY KEY AUTOINCREMENT,
name TEXT NOT NULL, email TEXT NOT NULL, age INTEGER, notes TEXT) is
modelled as a list of rows in rowid order together with the
`sqlite_sequence` counter `seq` that AUTOINCREMENT keeps: a fresh insert
is assigned `max seq (largest rowid present) + 1` and `seq` is advanced
to that value, which is exactly SQLite's AUTOINCREMENT rule and is what
makes identifiers never-reused.  Each gateway function from `app.py`
(`insert_entry`, `view_all`, `get_entry`, `update_entry`, `delete_entry`,
`init_db`) is translated directly from its SQL statement; the Streamlit
form handlers in `main` are translated as pure functions over this state.
-/

/-- A row of the `entries` table.  `age` is the nullable INTEGER column
(`Optional[int]` in the gateway signatures); `name`, `email`, `notes` are
the TEXT columns, always bound to Python `str` arguments by the gateway. -/
structure Entry where
  id : Nat
  name : String
  email : String
  age : Option Int
  notes : String
deriving DecidableEq

/-- The persistent state of the database file: the rows of `entries` in
rowid order, plus the AUTOINCREMENT counter from `sqlite_sequence`. -/
structure DB where
  table : List Entry
  seq : Nat
deriving DecidableEq

/-- Largest rowid currently present in the table (0 when empty). -/
def maxRowId (l : List Entry) : Nat :=
  l.foldr (fun r m => max r.id m) 0

/-- The rowid SQLite AUTOINCREMENT assigns to the next inserted row. -/
def nextId (s : DB) : Nat :=
  max s.seq (maxRowId s.table) + 1

/-- `insert_entry(name, email, age, notes)` from app.py lines 47-54:
`INSERT INTO entries (name, email, age, notes) VALUES (?, ?, ?, ?)`,
returning `cur.lastrowid`.  The new row is appended with the
AUTOINCREMENT-assigned id and `sqlite_sequence` is advanced. -/
def insert_entry (s : DB) (name email : String) (age : Option Int) (notes : String) :
    Nat × DB :=
  (nextId s, ⟨s.table ++ [⟨nextId s, name, email, age, notes⟩], nextId s⟩)

/-- `get_entry(row_id)` from app.py lines 64-68:
`SELECT * FROM entries WHERE id = ?` with `fetchone()`, i.e. the first
matching row or `None`. -/
def get_entry (s : DB) (row_id : Nat) : Option Entry :=
  s.table.find? (fun r => r.id == row_id)

/-- The single-row full-field rewrite performed by the UPDATE statement
on a row matching the `WHERE id = ?` clause; other rows are untouched. -/
def updRow (row_id : Nat) (name email : String) (age : Option Int) (notes : String)
    (r : Entry) : Entry :=
  if r.id = row_id then ⟨r.id, name, email, age, notes⟩ else r

/-- `update_entry(row_id, name, email, age, notes)` from app.py lines 71-78:
`UPDATE entries SET name = ?, email = ?, age = ?, notes = ? WHERE id = ?`,
returning `cur.rowcount > 0`. -/
def update_entry (s : DB) (row_id : Nat) (name email : String) (age : Option Int)
    (notes : String) : Bool × DB :=
  (decide (0 < s.table.countP (fun r => r.id == row_id)),
   ⟨s.table.map (updRow row_id name email age notes), s.seq⟩)

/-- `delete_entry(row_id)` from app.py lines 81-85:
`DELETE FROM entries WHERE id = ?`, returning `cur.rowcount > 0`.
Deletion does not touch `sqlite_sequence`. -/
def delete_entry (s : DB) (row_id : Nat) : Bool × DB :=
  (decide (0 < s.table.countP (fun r => r.id == row_id)),
   ⟨s.table.filter (fun r => !(r.id == row_id)), s.seq⟩)

/-- Ordering used by `view_all`'s `ORDER BY id DESC`. -/
def byIdDesc (a b : Entry) : Prop := b.id ≤ a.id

instance : DecidableRel byIdDesc := fun a b => Nat.decLe b.id a.id

instance : IsTotal Entry byIdDesc := ⟨fun a b => Nat.le_total b.id a.id⟩

instance : IsTrans Entry byIdDesc :=
  ⟨fun _ _ _ h1 h2 => Nat.le_trans h2 h1⟩

/-- `view_all()` from app.py lines 57-61:
`SELECT * FROM entries ORDER BY id DESC` with `fetchall()`. -/
def view_all (s : DB) : List Entry :=
  List.insertionSort byIdDesc s.table

/-- `init_db()` from app.py lines 31-44: `CREATE TABLE IF NOT EXISTS entries
(...)` — creates the (empty) table when the file has none, otherwise leaves
the existing table and its rows alone.  `none` models a database file in
which the table does not yet exist. -/
def init_db : Option DB → Option DB
  | none => some ⟨[], 0⟩
  | some db => some db

/-- All rowids present in the table are bounded by the sequence counter;
this holds for every state reachable from a fresh database. -/
def wf (s : DB) : Prop :=
  ∀ r ∈ s.table, r.id ≤ s.seq

/-- The state `init_db` produces for a fresh database file. -/
def initDB : DB := ⟨[], 0⟩

/-- The write operations the application can perform against the store. -/
inductive Op where
  | create (name email : String) (age : Option Int) (notes : String)
  | update (row_id : Nat) (name email : String) (age : Option Int) (notes : String)
  | delete (row_id : Nat)

/-- Effect of one operation on the database state. -/
def applyOp (s : DB) : Op → DB
  | .create name email age notes => (insert_entry s name email age notes).2
  | .update row_id name email age notes => (update_entry s row_id name email age notes).2
  | .delete row_id => (delete_entry s row_id).2

/-- Run a sequence of operations. -/
def runOps : DB → List Op → DB
  | s, [] => s
  | s, op :: ops => runOps (applyOp s op) ops

/-- The identifiers assigned by the successive `create` operations of a
sequence, in order. -/
def assignedIds : DB → List Op → List Nat
  | _, [] => []
  | s, Op.create name email age notes :: ops =>
      (insert_entry s name email age notes).1 ::
        assignedIds (applyOp s (Op.create name email age notes)) ops
  | s, Op.update row_id name email age notes :: ops =>
      assignedIds (applyOp s (Op.update row_id name email age notes)) ops
  | s, Op.delete row_id :: ops =>
      assignedIds (applyOp s (Op.delete row_id)) ops

/-- Outcome shown to the user by the add-entry form. -/
inductive AddOutcome where
  | requiredError
  | added (new_id : Nat)
deriving DecidableEq

/-- The add-form submit handler, app.py lines 108-119: when `name` or
`email` is empty (Python falsy) it shows "Name and Email are required."
and never touches storage; otherwise it strips the text inputs, coerces
the form's age to an integer and inserts. -/
def handleAdd (s : DB) (name email : String) (age : Int) (notes : String) :
    AddOutcome × DB :=
  if name = "" ∨ email = "" then (AddOutcome.requiredError, s)
  else
    let r := insert_entry s name.trim email.trim (some age) notes.trim
    (AddOutcome.added r.1, r.2)

/-- Storage-layer failure raised by the SQLite driver on a failed write
(`StorageWriteError` in the spec's taxonomy). -/
inductive StorageErr where
  | writeError
deriving DecidableEq

/-- `insert_entry` including its failure path: when the underlying write
fails (`fault = true`), the driver raises instead of returning an id. -/
def insert_entry_f (fault : Bool) (s : DB) (name email : String)
    (age : Option Int) (notes : String) : Except StorageErr (Nat × DB) :=
  if fault then Except.error StorageErr.writeError
  else Except.ok (insert_entry s name email age notes)

/-- The add-form submit handler with the storage failure path made
explicit.  `main` (app.py lines 114-119) calls `insert_entry` with no
try/except around it, so an error raised by the gateway leaves the handler
unhandled — the `.error` branch is passed through unchanged. -/
def handleAdd_f (fault : Bool) (s : DB) (name email : String) (age : Int)
    (notes : String) : Except StorageErr (AddOutcome × DB) :=
  if name = "" ∨ email = "" then Except.ok (AddOutcome.requiredError, s)
  else
    match insert_entry_f fault s name.trim email.trim (some age) notes.trim with
    | Except.error e => Except.error e
    | Except.ok (i, s') => Except.ok (AddOutcome.added i, s')

/-- Default value of the age widget on the update form, app.py line 151:
`value=record["age"] if record["age"] is not None else 18`. -/
def updateFormDefaultAge (r : Entry) : Int :=
  r.age.getD 18

/-- The update-form submit handler, app.py line 155: strips the text
inputs, coerces the form's age to an integer (`int(new_age)`, never NULL)
and calls `update_entry`. -/
def submitUpdateForm (s : DB) (row_id : Nat) (name email : String) (age : Int)
    (notes : String) : Bool × DB :=
  update_entry s row_id name.trim email.trim (some age) notes.trim

-- basic facts about the embedding

theorem nextId_gt_seq (s : DB) : s.seq < nextId s :=
  Nat.lt_succ_of_le (Nat.le_max_left _ _)

theorem find?_append_of_none {p : Entry → Bool} {l₁ l₂ : List Entry}
    (h : l₁.find? p = none) : (l₁ ++ l₂).find? p = l₂.find? p := by
  induction l₁ with
  | nil => rfl
  | cons a l ih =>
    rw [List.find?_cons] at h
    cases hp : p a with
    | false =>
      simp only [hp] at h
      simpa [List.find?_cons, hp] using ih h
    | true => simp [hp] at h

theorem wf_no_match (s : DB) (hwf : wf s) :
    s.table.find? (fun r => r.id == nextId s) = none := by
  rw [List.find?_eq_none]
  intro r hr
  have := hwf r hr
  have hlt : r.id < nextId s := Nat.lt_of_le_of_lt this (nextId_gt_seq s)
  simp [Nat.ne_of_lt hlt]

/-- **C1.** On any well-formed state, `insert_entry` returns the freshly
assigned identifier, and `get_entry` at that identifier returns a row whose
id is that identifier and whose name, email, age and notes are exactly the
inserted values. -/
theorem insert_then_get (s : DB) (hwf : wf s)
    (name email : String) (age : Option Int) (notes : String) :
    get_entry (insert_entry s name email age notes).2
        (insert_entry s name email age notes).1 =
      some ⟨(insert_entry s name email age notes).1, name, email, age, notes⟩ := by
  unfold get_entry insert_entry
  rw [find?_append_of_none (wf_no_match s hwf)]
  simp [List.find?_cons]

/-- Witness for C1: inserting ("Alice", "alice@x.com", 30, "vip") into the
fresh database assigns id 1, and `get_entry 1` returns exactly that row. -/
theorem insert_then_get_witness :
    get_entry (insert_entry initDB "Alice" "alice@x.com" (some 30) "vip").2
        (insert_entry initDB "Alice" "alice@x.com" (some 30) "vip").1 =
      some ⟨(insert_entry initDB "Alice" "alice@x.com" (some 30) "vip").1,
            "Alice", "alice@x.com", some 30, "vip"⟩ :=
  insert_then_get initDB (by intro r hr; simp [initDB] at hr)
    "Alice" "alice@x.com" (some 30) "vip"

theorem updRow_of_ne {row_id : Nat} {name email : String} {age : Option Int}
    {notes : String} {r : Entry} (h : r.id ≠ row_id) :
    updRow row_id name email age notes r = r := by
  simp [updRow, h]

theorem map_updRow_of_no_match {row_id : Nat} {name email : String}
    {age : Option Int} {notes : String} {l : List Entry}
    (h : ∀ r ∈ l, r.id ≠ row_id) :
    l.map (updRow row_id name email age notes) = l := by
  induction l with
  | nil => rfl
  | cons a l ih =>
    rw [List.map_cons, updRow_of_ne (h a (List.mem_cons_self a l)),
      ih (fun r hr => h r (List.mem_cons_of_mem a hr))]

theorem find?_map_updRow {row_id : Nat} {name email : String}
    {age : Option Int} {notes : String} {l : List Entry}
    (h : ∃ r ∈ l, r.id = row_id) :
    (l.map (updRow row_id name email age notes)).find? (fun r => r.id == row_id) =
      some ⟨row_id, name, email, age, notes⟩ := by
  induction l with
  | nil => simp at h
  | cons a l ih =>
    rw [List.map_cons]
    by_cases ha : a.id = row_id
    · rw [List.find?_cons]
      simp [updRow, ha]
    · rw [updRow_of_ne ha, List.find?_cons]
      have hfalse : (a.id == row_id) = false := by simp [ha]
      simp only [hfalse]
      apply ih
      rcases h with ⟨r, hr, hid⟩
      rcases List.mem_cons.mp hr with rfl | hr
      · exact absurd hid ha
      · exact ⟨r, hr, hid⟩

theorem get_entry_ne_none_iff (s : DB) (row_id : Nat) :
    get_entry s row_id ≠ none ↔ ∃ r ∈ s.table, r.id = row_id := by
  unfold get_entry
  rw [Ne, List.find?_eq_none]
  push_neg
  simp

/-- **C2.** If a row with identifier `row_id` exists, `update_entry` returns
true and a subsequent `get_entry row_id` returns exactly the updated fields
with the same id; if no such row exists, `update_entry` returns false and
the state is entirely unchanged. -/
theorem update_then_get (s : DB) (row_id : Nat) (name email : String)
    (age : Option Int) (notes : String) :
    (get_entry s row_id ≠ none →
      (update_entry s row_id name email age notes).1 = true ∧
      get_entry (update_entry s row_id name email age notes).2 row_id =
        some ⟨row_id, name, email, age, notes⟩) ∧
    (get_entry s row_id = none →
      (update_entry s row_id name email age notes).1 = false ∧
      (update_entry s row_id name email age notes).2 = s) := by
  constructor
  · intro h
    have hex : ∃ r ∈ s.table, r.id = row_id := (get_entry_ne_none_iff s row_id).mp h
    constructor
    · have : 0 < s.table.countP (fun r => r.id == row_id) := by
        rw [List.countP_pos_iff]
        rcases hex with ⟨r, hr, hid⟩
        exact ⟨r, hr, by simp [hid]⟩
      simp [update_entry, this]
    · unfold get_entry update_entry
      exact find?_map_updRow hex
  · intro h
    unfold get_entry at h
    rw [List.find?_eq_none] at h
    have hzero : s.table.countP (fun r => r.id == row_id) = 0 := by
      rw [List.countP_eq_zero]
      exact h
    have hne : ∀ r ∈ s.table, r.id ≠ row_id := by
      intro r hr
      have := h r hr
      simpa using this
    constructor
    · simp [update_entry, hzero]
    · show (⟨s.table.map (updRow row_id name email age notes), s.seq⟩ : DB) = s
      rw [map_updRow_of_no_match hne]

/-- Witness for C2: on a one-row database with id 1, updating id 1 returns
true and `get_entry 1` returns the new fields; updating id 2 returns false
and leaves the database unchanged. -/
theorem update_then_get_witness :
    ((update_entry ⟨[⟨1, "Alice", "alice@x.com", some 30, "vip"⟩], 1⟩ 1
        "Alice B" "alice@x.com" (some 31) "vip").1 = true ∧
      get_entry (update_entry ⟨[⟨1, "Alice", "alice@x.com", some 30, "vip"⟩], 1⟩ 1
        "Alice B" "alice@x.com" (some 31) "vip").2 1 =
        some ⟨1, "Alice B", "alice@x.com", some 31, "vip"⟩) ∧
    ((update_entry ⟨[⟨1, "Alice", "alice@x.com", some 30, "vip"⟩], 1⟩ 2
        "Z" "z@x.com" none "").1 = false ∧
      (update_entry ⟨[⟨1, "Alice", "alice@x.com", some 30, "vip"⟩], 1⟩ 2
        "Z" "z@x.com" none "").2 =
        ⟨[⟨1, "Alice", "alice@x.com", some 30, "vip"⟩], 1⟩) :=
  ⟨(update_then_get ⟨[⟨1, "Alice", "alice@x.com", some 30, "vip"⟩], 1⟩ 1
      "Alice B" "alice@x.com" (some 31) "vip").1 (by decide),
   (update_then_get ⟨[⟨1, "Alice", "alice@x.com", some 30, "vip"⟩], 1⟩ 2
      "Z" "z@x.com" none "").2 (by decide)⟩

/-- **C3.** After `delete_entry row_id` the row is gone (`get_entry` returns
none); the returned boolean is true exactly when a row with that id was
present; and deleting the same id a second time returns false. -/
theorem delete_then_get (s : DB) (row_id : Nat) :
    get_entry (delete_entry s row_id).2 row_id = none ∧
    ((delete_entry s row_id).1 = true ↔ get_entry s row_id ≠ none) ∧
    (delete_entry (delete_entry s row_id).2 row_id).1 = false := by
  refine ⟨?_, ?_, ?_⟩
  · unfold get_entry delete_entry
    rw [List.find?_eq_none]
    intro r hr
    have := (List.mem_filter.mp hr).2
    simpa using this
  · rw [get_entry_ne_none_iff]
    unfold delete_entry
    rw [decide_eq_true_iff, List.countP_pos_iff]
    constructor
    · rintro ⟨r, hr, hp⟩
      exact ⟨r, hr, by simpa using hp⟩
    · rintro ⟨r, hr, hp⟩
      exact ⟨r, hr, by simpa using hp⟩
  · unfold delete_entry
    have : ((delete_entry s row_id).2).table.countP (fun r => r.id == row_id) = 0 := by
      rw [List.countP_eq_zero]
      intro r hr
      have := (List.mem_filter.mp hr).2
      simpa using this
    simp only [delete_entry] at this
    simp [this]

/-- **C4.** `view_all` returns exactly the rows of the table (a
permutation of it), ordered by identifier descending; on an empty table it
returns the empty list; and after inserting three records into a fresh
database (assigned ids 1, 2, 3 in that order) it returns them ordered
3, 2, 1. -/
theorem view_all_ordered (s : DB) :
    (view_all s).Perm s.table ∧
    List.Sorted byIdDesc (view_all s) ∧
    (∀ n : Nat, view_all ⟨[], n⟩ = []) ∧
    ((insert_entry initDB "a" "a@x" none "").1 = 1 ∧
      (insert_entry (insert_entry initDB "a" "a@x" none "").2
        "b" "b@x" none "").1 = 2 ∧
      (insert_entry (insert_entry (insert_entry initDB "a" "a@x" none "").2
        "b" "b@x" none "").2 "c" "c@x" none "").1 = 3 ∧
      (view_all (insert_entry (insert_entry (insert_entry initDB "a" "a@x" none "").2
        "b" "b@x" none "").2 "c" "c@x" none "").2).map Entry.id = [3, 2, 1]) := by
  refine ⟨List.perm_insertionSort byIdDesc s.table,
    List.sorted_insertionSort byIdDesc s.table, fun n => rfl, ?_, ?_, ?_, ?_⟩ <;> rfl

/-- **C6.** `init_db` is idempotent: running it twice equals running it
once, and running it on a database whose table already exists is the
identity, preserving every existing row; on a fresh file it creates the
empty table. -/
theorem init_db_idempotent (s : Option DB) :
    init_db (init_db s) = init_db s ∧
    (∀ db : DB, init_db (some db) = some db) ∧
    init_db none = some initDB := by
  refine ⟨?_, fun db => rfl, rfl⟩
  cases s with
  | none => rfl
  | some db => rfl

theorem seq_le_applyOp (s : DB) (op : Op) : s.seq ≤ (applyOp s op).seq := by
  cases op with
  | create name email age notes =>
    exact Nat.le_of_lt (nextId_gt_seq s)
  | update row_id name email age notes => exact Nat.le_refl _
  | delete row_id => exact Nat.le_refl _

theorem assignedIds_gt_seq :
    ∀ (ops : List Op) (s : DB), ∀ i ∈ assignedIds s ops, s.seq < i := by
  intro ops
  induction ops with
  | nil => intro s i hi; simp [assignedIds] at hi
  | cons op ops ih =>
    intro s i hi
    cases op with
    | create name email age notes =>
      rw [assignedIds, List.mem_cons] at hi
      rcases hi with rfl | hi
      · exact nextId_gt_seq s
      · have h1 := ih _ i hi
        have h2 := seq_le_applyOp s (Op.create name email age notes)
        exact Nat.lt_of_le_of_lt h2 h1
    | update row_id name email age notes =>
      rw [assignedIds] at hi
      exact ih (applyOp s (Op.update row_id name email age notes)) i hi
    | delete row_id =>
      rw [assignedIds] at hi
      exact ih (applyOp s (Op.delete row_id)) i hi

theorem updRow_id (row_id : Nat) (name email : String) (age : Option Int)
    (notes : String) (r : Entry) :
    (updRow row_id name email age notes r).id = r.id := by
  unfold updRow
  split <;> rfl

/-- **C7.** Identifiers are immutable and never reused: along any sequence
of operations run from a fresh database, the identifiers assigned by the
successive creates are strictly increasing (so no new row is ever given an
identifier previously assigned, in particular not one assigned to a row
deleted in the meantime); update rewrites fields but leaves the id column
of the table pointwise unchanged; delete only removes rows; and create
leaves existing rows in place. -/
theorem ids_immutable_never_reused :
    (∀ ops : List Op, (assignedIds initDB ops).Pairwise (fun a b => a < b)) ∧
    (∀ (s : DB) (row_id : Nat) (name email : String) (age : Option Int)
        (notes : String),
      ((update_entry s row_id name email age notes).2).table.map Entry.id =
        s.table.map Entry.id) ∧
    (∀ (s : DB) (row_id : Nat) (r : Entry),
      r ∈ ((delete_entry s row_id).2).table → r ∈ s.table) ∧
    (∀ (s : DB) (name email : String) (age : Option Int) (notes : String)
        (r : Entry),
      r ∈ s.table → r ∈ ((insert_entry s name email age notes).2).table) := by
  refine ⟨?_, ?_, ?_, ?_⟩
  · have key : ∀ (ops : List Op) (s : DB),
        (assignedIds s ops).Pairwise (fun a b => a < b) := by
      intro ops
      induction ops with
      | nil => intro s; simp [assignedIds]
      | cons op ops ih =>
        intro s
        cases op with
        | create name email age notes =>
          rw [assignedIds]
          refine List.Pairwise.cons ?_ (ih _)
          intro j hj
          exact assignedIds_gt_seq ops _ j hj
        | update row_id name email age notes => rw [assignedIds]; exact ih _
        | delete row_id => rw [assignedIds]; exact ih _
    exact fun ops => key ops initDB
  · intro s row_id name email age notes
    show (s.table.map (updRow row_id name email age notes)).map Entry.id =
      s.table.map Entry.id
    rw [List.map_map]
    exact List.map_congr_left fun r _ => updRow_id row_id name email age notes r
  · intro s row_id r hr
    exact List.mem_of_mem_filter hr
  · intro s name email age notes r hr
    exact List.mem_append_left _ hr

/-- Witness for C7: a pre-existing row survives an insert unchanged, and
the ids assigned along a concrete create/delete/create trace are strictly
increasing (the deleted id 1 is not reused). -/
theorem ids_immutable_never_reused_witness :
    ((⟨1, "a", "a@x", none, ""⟩ : Entry) ∈
      ((insert_entry ⟨[⟨1, "a", "a@x", none, ""⟩], 1⟩ "b" "b@x" none "").2).table) ∧
    (assignedIds initDB [Op.create "a" "a@x" none "", Op.delete 1,
        Op.create "b" "b@x" none ""]).Pairwise (fun a b => a < b) :=
  ⟨ids_immutable_never_reused.2.2.2 ⟨[⟨1, "a", "a@x", none, ""⟩], 1⟩
      "b" "b@x" none "" ⟨1, "a", "a@x", none, ""⟩ (by decide),
    ids_immutable_never_reused.1
      [Op.create "a" "a@x" none "", Op.delete 1, Op.create "b" "b@x" none ""]⟩

theorem find?_map_updRow_ne {row_id j : Nat} (hj : j ≠ row_id)
    (name email : String) (age : Option Int) (notes : String) (l : List Entry) :
    (l.map (updRow row_id name email age notes)).find? (fun r => r.id == j) =
      l.find? (fun r => r.id == j) := by
  induction l with
  | nil => rfl
  | cons a l ih =>
    rw [List.map_cons, List.find?_cons, List.find?_cons]
    cases hpa : (a.id == j) with
    | true =>
      have haj : a.id = j := by simpa using hpa
      have har : a.id ≠ row_id := by rw [haj]; exact hj
      rw [updRow_of_ne har]
      simp [hpa]
    | false =>
      simp only [updRow_id, hpa]
      exact ih

theorem find?_filter_ne {row_id j : Nat} (hj : j ≠ row_id) (l : List Entry) :
    (l.filter (fun r => !(r.id == row_id))).find? (fun r => r.id == j) =
      l.find? (fun r => r.id == j) := by
  induction l with
  | nil => rfl
  | cons a l ih =>
    rw [List.filter_cons]
    by_cases har : a.id = row_id
    · have hdrop : (!(a.id == row_id)) = false := by simp [har]
      have hpa : (a.id == j) = false := by
        simp only [beq_eq_false_iff_ne, ne_eq]
        rw [har]
        exact fun h => hj h.symm
      rw [hdrop, if_neg (by simp), List.find?_cons, hpa]
      exact ih
    · have hkeep : (!(a.id == row_id)) = true := by simp [har]
      rw [hkeep, if_pos rfl, List.find?_cons, List.find?_cons]
      cases hpa : (a.id == j) with
      | true => rfl
      | false => exact ih

theorem find?_append_of_some {p : Entry → Bool} {l₁ : List Entry} {r : Entry}
    (l₂ : List Entry) (h : l₁.find? p = some r) :
    (l₁ ++ l₂).find? p = some r := by
  induction l₁ with
  | nil => simp [List.find?] at h
  | cons a l ih =>
    rw [List.find?_cons] at h
    rw [List.cons_append, List.find?_cons]
    cases hp : p a with
    | true => simpa [hp] using h
    | false =>
      simp only [hp] at h
      exact ih h

/-- **C9.** Single-row operations do not disturb other rows: for any
identifier `j` different from the targeted `row_id`, `update_entry` and
`delete_entry` leave the row seen at `j` exactly as before; `insert_entry`
keeps every pre-existing row in the table, and any id readable before the
insert reads the same afterwards. -/
theorem frame_other_rows (s : DB) (row_id j : Nat) (name email : String)
    (age : Option Int) (notes : String) (hj : j ≠ row_id) :
    get_entry (update_entry s row_id name email age notes).2 j = get_entry s j ∧
    get_entry (delete_entry s row_id).2 j = get_entry s j ∧
    (∀ r ∈ s.table, r ∈ ((insert_entry s name email age notes).2).table) ∧
    (get_entry s j ≠ none →
      get_entry (insert_entry s name email age notes).2 j = get_entry s j) := by
  refine ⟨?_, ?_, ?_, ?_⟩
  · exact find?_map_updRow_ne hj name email age notes s.table
  · exact find?_filter_ne hj s.table
  · intro r hr
    exact List.mem_append_left _ hr
  · intro h
    unfold get_entry at h ⊢
    rcases Option.ne_none_iff_exists'.mp h with ⟨r, hr⟩
    rw [hr]
    exact find?_append_of_some _ hr

/-- Witness for C9: in a one-row database, updating, deleting or inserting
at a different id leaves the row with id 1 readable unchanged. -/
theorem frame_other_rows_witness :
    get_entry (update_entry ⟨[⟨1, "a", "a@x", none, ""⟩], 1⟩ 2 "N" "E" none "T").2 1 =
      get_entry ⟨[⟨1, "a", "a@x", none, ""⟩], 1⟩ 1 ∧
    get_entry (delete_entry ⟨[⟨1, "a", "a@x", none, ""⟩], 1⟩ 2).2 1 =
      get_entry ⟨[⟨1, "a", "a@x", none, ""⟩], 1⟩ 1 ∧
    get_entry (insert_entry ⟨[⟨1, "a", "a@x", none, ""⟩], 1⟩ "N" "E" none "T").2 1 =
      get_entry ⟨[⟨1, "a", "a@x", none, ""⟩], 1⟩ 1 := by
  have h := frame_other_rows ⟨[⟨1, "a", "a@x", none, ""⟩], 1⟩ 2 1 "N" "E" none "T"
    (by decide)
  exact ⟨h.1, h.2.1, h.2.2.2 (by decide)⟩

/-- **C8.** The gateway itself never rejects its inputs: `insert_entry`
appends a row holding exactly the given strings — empty or not — and the
non-emptiness check lives only in the add-form handler, which on an empty
name or email reports the validation failure and returns the storage state
untouched (no insert happens). -/
theorem empty_strings_storage_boundary (s : DB) (name email : String)
    (age : Option Int) (ageForm : Int) (notes : String) :
    ((insert_entry s name email age notes).2).table =
      s.table ++ [⟨(insert_entry s name email age notes).1, name, email, age, notes⟩] ∧
    ((name = "" ∨ email = "") →
      handleAdd s name email ageForm notes = (AddOutcome.requiredError, s)) := by
  refine ⟨rfl, ?_⟩
  intro h
  unfold handleAdd
  rw [if_pos h]

/-- Witness for C8: inserting empty name and email succeeds and stores
them verbatim, while submitting the add form with an empty name reports
the validation error and leaves the fresh database untouched. -/
theorem empty_strings_storage_boundary_witness :
    ((insert_entry initDB "" "" none "").2).table =
      initDB.table ++ [⟨(insert_entry initDB "" "" none "").1, "", "", none, ""⟩] ∧
    handleAdd initDB "" "x@y" 18 "" = (AddOutcome.requiredError, initDB) :=
  ⟨(empty_strings_storage_boundary initDB "" "" none 18 "").1,
   (empty_strings_storage_boundary initDB "" "x@y" none 18 "").2 (Or.inl rfl)⟩

/-- Counterexample for C5: on the fresh database with valid inputs
("Alice", "alice@x.com", 30, "vip"), when the underlying write fails the
add-form handler itself evaluates to the propagated `StorageWriteError` —
`main` wraps no try/except around `insert_entry`, so the failure is not
converted into a user-visible message; it escapes the handler. -/
theorem storage_failure_not_caught :
    handleAdd_f true initDB "Alice" "alice@x.com" 30 "vip" =
      Except.error StorageErr.writeError := by
  simp [handleAdd_f, insert_entry_f]

/-- **C5 (amended).** Storage-layer write failures are NOT caught at the
boundary between the storage gateway and the presentation layer: whenever
the inputs pass validation and the underlying write fails, the error
leaves the add-form handler unconverted and unhandled; only when the write
succeeds does the handler never surface an error (and the only message it
produces itself is the validation one). -/
theorem storage_error_propagation (s : DB) (name email : String) (age : Int)
    (notes : String) (hv : ¬(name = "" ∨ email = "")) :
    handleAdd_f true s name email age notes =
      Except.error StorageErr.writeError ∧
    (∀ e : StorageErr, handleAdd_f false s name email age notes ≠ Except.error e) := by
  constructor
  · unfold handleAdd_f
    rw [if_neg hv]
    rfl
  · intro e
    unfold handleAdd_f
    rw [if_neg hv]
    simp [insert_entry_f]

/-- Witness for the amended C5: concrete valid inputs on the fresh
database; a failing write propagates, a succeeding one never errors. -/
theorem storage_error_propagation_witness :
    (handleAdd_f true initDB "Alice" "alice@x.com" 30 "vip" =
      Except.error StorageErr.writeError) ∧
    (∀ e : StorageErr, handleAdd_f false initDB "Alice" "alice@x.com" 30 "vip" ≠
      Except.error e) :=
  storage_error_propagation initDB "Alice" "alice@x.com" 30 "vip" (by decide)

/-- **C10.** A stored NULL age does not survive an edit through the UI:
for a record whose persisted age is NULL, the update form's age widget
defaults to 18 and the handler coerces it to an integer, so saving the
form with its pre-filled values persists age 18; moreover every row
written by the update-form or add-form handlers (i.e. any row of the
resulting table that is not a pre-existing row left in place) has a
non-NULL age. -/
theorem null_age_not_preserved (s : DB) (row_id : Nat) (r : Entry)
    (hget : get_entry s row_id = some r) (hage : r.age = none) :
    updateFormDefaultAge r = 18 ∧
    (submitUpdateForm s row_id r.name r.email (updateFormDefaultAge r) r.notes).1 = true ∧
    get_entry (submitUpdateForm s row_id r.name r.email (updateFormDefaultAge r)
        r.notes).2 row_id =
      some ⟨row_id, r.name.trim, r.email.trim, some 18, r.notes.trim⟩ ∧
    (∀ (t : DB) (i : Nat) (nn ne : String) (na : Int) (nnt : String) (x : Entry),
      x ∈ ((submitUpdateForm t i nn ne na nnt).2).table → x ∈ t.table ∨ x.age ≠ none) ∧
    (∀ (t : DB) (nn ne : String) (na : Int) (nnt : String) (x : Entry),
      x ∈ ((handleAdd t nn ne na nnt).2).table → x ∈ t.table ∨ x.age ≠ none) := by
  have h18 : updateFormDefaultAge r = 18 := by
    rw [updateFormDefaultAge, hage]
    rfl
  have hget2 : s.table.find? (fun x => x.id == row_id) = some r := hget
  have hmem : r ∈ s.table := List.mem_of_find?_eq_some hget2
  have hid : r.id = row_id := by
    have := List.find?_some hget2
    simpa using this
  have hex : ∃ x ∈ s.table, x.id = row_id := ⟨r, hmem, hid⟩
  refine ⟨h18, ?_, ?_, ?_, ?_⟩
  · rw [h18]
    unfold submitUpdateForm update_entry
    have : 0 < s.table.countP (fun x => x.id == row_id) := by
      rw [List.countP_pos_iff]
      rcases hex with ⟨x, hx, hxid⟩
      exact ⟨x, hx, by simp [hxid]⟩
    simp [this]
  · rw [h18]
    unfold submitUpdateForm update_entry get_entry
    exact find?_map_updRow hex
  · intro t i nn ne na nnt x hx
    unfold submitUpdateForm update_entry at hx
    rcases List.mem_map.mp hx with ⟨y, hy, rfl⟩
    unfold updRow
    split
    · right
      simp
    · left
      exact hy
  · intro t nn ne na nnt x hx
    unfold handleAdd at hx
    split at hx
    · left
      exact hx
    · rcases List.mem_append.mp hx with hx | hx
      · left
        exact hx
      · right
        rw [List.mem_singleton] at hx
        rw [hx]
        simp

/-- Witness for C10: a record with NULL age, edited through the form with
its pre-filled default values, is persisted with age 18. -/
theorem null_age_not_preserved_witness :
    updateFormDefaultAge ⟨1, "Bob", "b@x", none, "n"⟩ = 18 ∧
    get_entry (submitUpdateForm ⟨[⟨1, "Bob", "b@x", none, "n"⟩], 1⟩ 1 "Bob" "b@x"
        (updateFormDefaultAge ⟨1, "Bob", "b@x", none, "n"⟩) "n").2 1 =
      some ⟨1, "Bob".trim, "b@x".trim, some 18, "n".trim⟩ :=
  ⟨(null_age_not_preserved ⟨[⟨1, "Bob", "b@x", none, "n"⟩], 1⟩ 1
      ⟨1, "Bob", "b@x", none, "n"⟩ rfl rfl).1,
   (null_age_not_preserved ⟨[⟨1, "Bob", "b@x", none, "n"⟩], 1⟩ 1
      ⟨1, "Bob", "b@x", none, "n"⟩ rfl rfl).2.2.1⟩
